import Mathlib

/-!
Verification development for the guarded browser-automation plan executor
implemented in `ai_agent.py`.

The file shallowly embeds the pieces of the program that the verified
properties are about:

* the Python string helpers the program relies on (`str.strip`,
  `str.lower`, `str.splitlines`, `str.replace`, the netloc extraction of
  `urllib.parse.urlparse`, the acceptance of `float(...)`),
* the JSON plan decoding performed by `ask_openai_for_plan`
  (code-fence stripping followed by `json.loads`),
* `get_domain_from_url`,
* the plan navigation gate and the approval gate of `main`,
* `find_element` and `execute_plan`.

External collaborators (the Selenium driver, the `validators` library)
are modeled as an explicit environment of oracles (`Env`); the embedded
code calls them exactly where the source does.  Machine output such as
`print` logging is modeled as returned data (per-step outcome records and
an event trace).
-/

/-! ## Python string helpers -/

/-- Whitespace as recognized by Python `str.strip()` / `float()` argument
stripping.  The common ASCII whitespace plus the C1 and file/group/record
separators; exotic Unicode space characters are not modeled. -/
def isPySpace (c : Char) : Bool :=
  c == ' ' || c == '\t' || c == '\n' || c == '\r' || c == '\x0b' || c == '\x0c' ||
  c == '\x1c' || c == '\x1d' || c == '\x1e' || c == '\x1f' || c == '\x85' || c == ' '

/-- Python `s.strip()` on a character list: drop Python whitespace from both ends. -/
def pyStripChars (cs : List Char) : List Char :=
  ((cs.dropWhile isPySpace).reverse.dropWhile isPySpace).reverse

/-- Python `s.strip()`. -/
def pyStrip (s : String) : String :=
  ⟨pyStripChars s.data⟩

/-- Python `s.lower()`, modeled for ASCII letters (the program compares the
result against the ASCII token "yes"). -/
def pyLower (s : String) : String :=
  ⟨s.data.map Char.toLower⟩

/-- Line terminators recognized by Python `str.splitlines` other than
`\r` (which is handled separately so that `\r\n` counts as one break). -/
def isLineTerm (c : Char) : Bool :=
  c == '\n' || c == '\x0b' || c == '\x0c' || c == '\x1c' || c == '\x1d' ||
  c == '\x1e' || c == '\x85' || c == ' ' || c == ' '

/-- Prepend a character to the first line of a line list (the head line
of the remaining text). -/
def consHead (c : Char) : List (List Char) → List (List Char)
  | [] => [[c]]
  | l :: ls => (c :: l) :: ls

/-- Whether a character terminates a line in `str.splitlines`. -/
def isBreak (c : Char) : Bool :=
  c == '\r' || isLineTerm c

/-- Python `s.splitlines()` on a character list (`\r\n` is one break). -/
def pySplitlines : List Char → List (List Char)
  | [] => []
  | [c] => if isBreak c then [[]] else [[c]]
  | c :: c2 :: rest =>
    if c = '\r' then
      if c2 = '\n' then [] :: pySplitlines rest
      else [] :: pySplitlines (c2 :: rest)
    else if isLineTerm c then
      [] :: pySplitlines (c2 :: rest)
    else
      consHead c (pySplitlines (c2 :: rest))

/-- Python `"\n".join(lines)` on character lists. -/
def pyJoinNL : List (List Char) → List Char
  | [] => []
  | [l] => l
  | l :: ls => l ++ '\n' :: pyJoinNL ls

/-! ## JSON values and `json.loads`

`ask_openai_for_plan` decodes the model output with `json.loads`.  The
decoder below follows the Python `json` module: strict strings (unescaped
control characters are rejected), the RFC 8259 number grammar (the lexeme
is kept; decoding to machine floats is not modeled), the extra constants
`NaN`, `Infinity` and `-Infinity`, and last-wins duplicate object keys.
Astral `\uXXXX\uXXXX` surrogate-pair combination is not modeled. -/

inductive PyJson where
  | null : PyJson
  | bool (b : Bool) : PyJson
  | num (lexeme : String) : PyJson
  | str (s : String) : PyJson
  | arr (xs : List PyJson) : PyJson
  | obj (kvs : List (String × PyJson)) : PyJson

/-- JSON inter-token whitespace. -/
def jsonWs (c : Char) : Bool :=
  c == ' ' || c == '\t' || c == '\n' || c == '\r'

def skipWs (cs : List Char) : List Char :=
  cs.dropWhile jsonWs

def isHexDigitCh (c : Char) : Bool :=
  c.isDigit || (decide ('a' ≤ c) && decide (c ≤ 'f')) || (decide ('A' ≤ c) && decide (c ≤ 'F'))

def hexVal (c : Char) : Nat :=
  if c.isDigit then c.toNat - '0'.toNat
  else if decide ('a' ≤ c) && decide (c ≤ 'f') then c.toNat - 'a'.toNat + 10
  else c.toNat - 'A'.toNat + 10

/-- Single-character JSON escapes. -/
def jsonEsc (c : Char) : Option Char :=
  if c = '"' then some '"'
  else if c = '\\' then some '\\'
  else if c = '/' then some '/'
  else if c = 'b' then some '\x08'
  else if c = 'f' then some '\x0c'
  else if c = 'n' then some '\n'
  else if c = 'r' then some '\r'
  else if c = 't' then some '\t'
  else none

/-- Parse the body of a JSON string (input starts after the opening quote);
returns the decoded characters and the remaining input after the closing
quote. -/
def parseJsonStr : Nat → List Char → Option (List Char × List Char)
  | 0, _ => none
  | _ + 1, [] => none
  | f + 1, c :: cs =>
    if c = '"' then some ([], cs)
    else if c = '\\' then
      match cs with
      | [] => none
      | e :: cs2 =>
        if e = 'u' then
          match cs2 with
          | h1 :: h2 :: h3 :: h4 :: cs3 =>
            if isHexDigitCh h1 && isHexDigitCh h2 && isHexDigitCh h3 && isHexDigitCh h4 then
              match parseJsonStr f cs3 with
              | some (s, rest) =>
                some (Char.ofNat (((hexVal h1 * 16 + hexVal h2) * 16 + hexVal h3) * 16 + hexVal h4) :: s, rest)
              | none => none
            else none
          | _ => none
        else
          match jsonEsc e with
          | some ec =>
            match parseJsonStr f cs2 with
            | some (s, rest) => some (ec :: s, rest)
            | none => none
          | none => none
    else if c.toNat < 32 then none
    else
      match parseJsonStr f cs with
      | some (s, rest) => some (c :: s, rest)
      | none => none

def takeDigits (cs : List Char) : List Char × List Char :=
  (cs.takeWhile Char.isDigit, cs.dropWhile Char.isDigit)

/-- The optional fraction part `.[0-9]+` of the JSON number grammar; when the
input does not match, nothing is consumed (regex longest-match behavior). -/
def jsonFrac (cs : List Char) : List Char × List Char :=
  match cs with
  | '.' :: r =>
    match takeDigits r with
    | ([], _) => ([], cs)
    | (ds, r2) => ('.' :: ds, r2)
  | _ => ([], cs)

/-- The optional exponent part `[eE][+-]?[0-9]+` of the JSON number grammar;
when the input does not match, nothing is consumed. -/
def jsonExp (cs : List Char) : List Char × List Char :=
  match cs with
  | c :: r =>
    if c == 'e' || c == 'E' then
      match r with
      | s :: r2 =>
        if s == '+' || s == '-' then
          match takeDigits r2 with
          | ([], _) => ([], cs)
          | (ds, r3) => (c :: s :: ds, r3)
        else
          match takeDigits r with
          | ([], _) => ([], cs)
          | (ds, r3) => (c :: ds, r3)
      | [] => ([], cs)
    else ([], cs)
  | [] => ([], cs)

/-- JSON number token: `-?(0|[1-9][0-9]*)(\.[0-9]+)?([eE][+-]?[0-9]+)?`.
Returns the lexeme and the rest of the input. -/
def jsonNumber (cs : List Char) : Option (List Char × List Char) :=
  let sr : List Char × List Char :=
    match cs with
    | '-' :: r => (['-'], r)
    | _ => ([], cs)
  match sr.2 with
  | '0' :: r =>
    let fr := jsonFrac r
    let ex := jsonExp fr.2
    some (sr.1 ++ '0' :: fr.1 ++ ex.1, ex.2)
  | c :: r =>
    if c.isDigit then
      let ds := takeDigits r
      let fr := jsonFrac ds.2
      let ex := jsonExp fr.2
      some (sr.1 ++ c :: ds.1 ++ fr.1 ++ ex.1, ex.2)
    else none
  | [] => none

/-- Insert a key into a decoded JSON object the way the Python `dict`
building does: an existing key keeps its position and gets the new value,
a new key is appended. -/
def objInsert (kvs : List (String × PyJson)) (k : String) (v : PyJson) : List (String × PyJson) :=
  if kvs.any (fun p => p.1 == k) then
    kvs.map (fun p => if p.1 == k then (k, v) else p)
  else
    kvs ++ [(k, v)]

mutual

/-- One JSON value, leading whitespace allowed.  Follows the dispatch of the
Python `json` scanner. -/
def parseValue : Nat → List Char → Option (PyJson × List Char)
  | 0, _ => none
  | f + 1, cs =>
    match skipWs cs with
    | '\x7b' :: r => parseObj f r
    | '[' :: r => parseArr f r
    | '"' :: r =>
      match parseJsonStr (r.length + 1) r with
      | some (s, rest) => some (.str ⟨s⟩, rest)
      | none => none
    | 't' :: 'r' :: 'u' :: 'e' :: r => some (.bool true, r)
    | 'f' :: 'a' :: 'l' :: 's' :: 'e' :: r => some (.bool false, r)
    | 'n' :: 'u' :: 'l' :: 'l' :: r => some (.null, r)
    | 'N' :: 'a' :: 'N' :: r => some (.num "nan", r)
    | 'I' :: 'n' :: 'f' :: 'i' :: 'n' :: 'i' :: 't' :: 'y' :: r => some (.num "inf", r)
    | '-' :: 'I' :: 'n' :: 'f' :: 'i' :: 'n' :: 'i' :: 't' :: 'y' :: r => some (.num "-inf", r)
    | rest =>
      match jsonNumber rest with
      | some (lex, r) => some (.num ⟨lex⟩, r)
      | none => none

/-- Array items after the opening bracket. -/
def parseArr : Nat → List Char → Option (PyJson × List Char)
  | 0, _ => none
  | f + 1, cs =>
    match skipWs cs with
    | ']' :: r => some (.arr [], r)
    | _ => parseArrItems f cs []

/-- One array item, then a comma or the closing bracket. -/
def parseArrItems : Nat → List Char → List PyJson → Option (PyJson × List Char)
  | 0, _, _ => none
  | f + 1, cs, acc =>
    match parseValue f cs with
    | some (v, r) =>
      match skipWs r with
      | ',' :: r2 => parseArrItems f r2 (acc ++ [v])
      | ']' :: r2 => some (.arr (acc ++ [v]), r2)
      | _ => none
    | none => none

/-- Object members after the opening brace. -/
def parseObj : Nat → List Char → Option (PyJson × List Char)
  | 0, _ => none
  | f + 1, cs =>
    match skipWs cs with
    | '\x7d' :: r => some (.obj [], r)
    | _ => parseObjItems f cs []

/-- One `"key": value` member, then a comma or the closing brace. -/
def parseObjItems : Nat → List Char → List (String × PyJson) → Option (PyJson × List Char)
  | 0, _, _ => none
  | f + 1, cs, acc =>
    match skipWs cs with
    | '"' :: r =>
      match parseJsonStr (r.length + 1) r with
      | some (k, r2) =>
        match skipWs r2 with
        | ':' :: r3 =>
          match parseValue f r3 with
          | some (v, r4) =>
            match skipWs r4 with
            | ',' :: r5 => parseObjItems f r5 (objInsert acc ⟨k⟩ v)
            | '\x7d' :: r5 => some (.obj (objInsert acc ⟨k⟩ v), r5)
            | _ => none
          | none => none
        | _ => none
      | none => none
    | _ => none

end

/-- Python `json.loads` on a character list: a single JSON document with
optional surrounding whitespace. -/
def pyJsonLoadsChars (cs : List Char) : Option PyJson :=
  match parseValue (cs.length + 1) cs with
  | some (v, rest) => if skipWs rest = [] then some v else none
  | none => none

/-- Python `json.loads`. -/
def pyJsonLoads (s : String) : Option PyJson :=
  pyJsonLoadsChars s.data

/-! ## Domain extraction: `get_domain_from_url` (ai_agent.py lines 56-62)

The helper calls `urllib.parse.urlparse(url)` and returns
`parsed.netloc.replace("www.", "")`, with every exception mapped to `""`.
The netloc extraction follows the CPython `urlsplit` steps relevant here:
strip leading C0-control-or-space characters, remove every tab, carriage
return and newline, split off a scheme, and when the remainder starts with
`//` take everything up to the first `/`, `?` or `#`.  A netloc with
unbalanced square brackets raises `ValueError` (caught by the helper);
the deeper bracketed-host validation of newer CPython is not modeled. -/

/-- Characters allowed in a URL scheme after the first letter. -/
def schemeCharB (c : Char) : Bool :=
  (c.isAlpha && decide (c.toNat < 128)) || c.isDigit || c == '+' || c == '-' || c == '.'

/-- The scheme-splitting step of `urlsplit`: when the input has the shape
`scheme:rest` with a valid scheme, return `rest`, otherwise the input. -/
def splitSchemeRest (cs : List Char) : List Char :=
  match cs.findIdx? (fun c => c == ':') with
  | none => cs
  | some i =>
    if i != 0 && (match cs.head? with | some c => c.isAlpha && decide (c.toNat < 128) | none => false)
        && (cs.take i).all schemeCharB then
      cs.drop (i + 1)
    else cs

/-- The netloc component computed by `urllib.parse.urlparse`; `none` models
the `ValueError` raised on unbalanced square brackets. -/
def pyUrlNetloc (cs : List Char) : Option (List Char) :=
  let cs1 := cs.dropWhile (fun c => decide (c.toNat ≤ 32))
  let cs2 := cs1.filter (fun c => c != '\t' && c != '\r' && c != '\n')
  let cs3 := splitSchemeRest cs2
  if ['/', '/'].isPrefixOf cs3 then
    let n := (cs3.drop 2).takeWhile (fun c => c != '/' && c != '?' && c != '#')
    if (n.contains '[' && !n.contains ']') || (n.contains ']' && !n.contains '[') then none
    else some n
  else some []

/-- Python `netloc.replace("www.", "")`: remove every non-overlapping
occurrence of `www.`, scanning left to right. -/
def stripWWW : List Char → List Char
  | 'w' :: 'w' :: 'w' :: '.' :: rest => stripWWW rest
  | c :: cs => c :: stripWWW cs
  | [] => []

/-- `get_domain_from_url` from ai_agent.py: netloc of the parsed URL with
every occurrence of `www.` removed; any parsing exception yields `""`. -/
def get_domain_from_url (url : String) : String :=
  match pyUrlNetloc url.data with
  | some n => ⟨stripWWW n⟩
  | none => ""

/-- Modelled from the spec: domain normalization that takes the
network-location component and drops only a LEADING `www.` when present,
leaving the rest of the string unchanged (spec section 4.3). -/
def spec_normalize_domain (url : String) : String :=
  match pyUrlNetloc url.data with
  | some n => if ['w', 'w', 'w', '.'].isPrefixOf n then ⟨n.drop 4⟩ else ⟨n⟩
  | none => ""

/-- Generic removal of every non-overlapping occurrence of a pattern,
scanning left to right, with explicit fuel; used to state the amended
normalization claim (`str.replace(pat, "")` semantics) independently of
`stripWWW`. -/
def removeAllOcc (pat : List Char) : Nat → List Char → List Char
  | 0, cs => cs
  | _ + 1, [] => []
  | f + 1, c :: cs =>
    if pat ≠ [] ∧ pat.isPrefixOf (c :: cs) then removeAllOcc pat f ((c :: cs).drop pat.length)
    else c :: removeAllOcc pat f cs

/-- Modelled from the spec as amended: the normalization removes every
occurrence of the substring `www.` from the network-location component,
not only a leading one. -/
def spec_normalize_domain_amended (url : String) : String :=
  match pyUrlNetloc url.data with
  | some n => ⟨removeAllOcc ['w', 'w', 'w', '.'] n.length n⟩
  | none => ""

/-! ## Plan decoding in `ask_openai_for_plan` (ai_agent.py lines 101-110)

The model response is stripped; when the result starts with a code fence
the first and last line are discarded (`"\n".join(text.splitlines()[1:-1])`,
no pattern match on the fence lines); the result is passed to `json.loads`.
A decoding failure raises `RuntimeError`, modeled as `none`. -/

/-- The code-fence stripping step: when the text starts with three
backticks, drop the first and the last line and rejoin with `\n`. -/
def strip_code_fence (t : List Char) : List Char :=
  if ['`', '`', '`'].isPrefixOf t then
    pyJoinNL (((pySplitlines t).drop 1).dropLast)
  else t

/-- The decoding performed by `ask_openai_for_plan` on the raw planner
text, on character lists. -/
def parse_plan_chars (cs : List Char) : Option PyJson :=
  pyJsonLoadsChars (strip_code_fence (pyStripChars cs))

/-- The decoding performed by `ask_openai_for_plan` on the raw planner
text: strip, remove an enclosing code fence, `json.loads`. -/
def ask_openai_parse (raw : String) : Option PyJson :=
  parse_plan_chars raw.data

/-! ## Python truthiness and `float` acceptance -/

/-- Whether the mantissa (the part before an exponent marker) of a numeric
lexeme contains a nonzero digit, i.e. whether the numeric value is nonzero. -/
def mantissaNonzero (cs : List Char) : Bool :=
  (cs.takeWhile (fun c => c != 'e' && c != 'E')).any
    (fun c => decide ('1' ≤ c) && decide (c ≤ '9'))

/-- Python truthiness of a decoded JSON value (`if value:` in the source).
The numeric case is decided on the kept lexeme. -/
def pyTruthy : PyJson → Bool
  | .null => false
  | .bool b => b
  | .num lex => lex == "nan" || lex == "inf" || lex == "-inf" || mantissaNonzero lex.data
  | .str s => s != ""
  | .arr xs => !xs.isEmpty
  | .obj kvs => !kvs.isEmpty

/-- The decimal part of the Python `float(...)` string grammar after the
optional sign: `d+ [. d*] [exp] | . d+ [exp]` with `exp = (e|E)[+-]?d+`.
PEP 515 digit underscores and non-ASCII digits are not modeled. -/
def floatExpDigits (r : List Char) : Bool :=
  let r2 : List Char :=
    match r with
    | s :: r2 => if s == '+' || s == '-' then r2 else s :: r2
    | [] => []
  match takeDigits r2 with
  | ([], _) => false
  | (_, r3) => r3.isEmpty

def floatExpTail : List Char → Bool
  | [] => true
  | c :: r => (c == 'e' || c == 'E') && floatExpDigits r

def floatDecBody (cs : List Char) : Bool :=
  match takeDigits cs with
  | (ip, r1) =>
    match r1 with
    | '.' :: r2 =>
      match takeDigits r2 with
      | (fp, r3) => (!ip.isEmpty || !fp.isEmpty) && floatExpTail r3
    | _ => !ip.isEmpty && floatExpTail r1

/-- Python `float(s)` acceptance: `some neg` when the string parses, where
`neg` says the value is strictly negative (which makes the subsequent
`time.sleep` raise); `none` when `float` raises `ValueError`. -/
def pyFloatStrParse (s : String) : Option Bool :=
  let cs := pyStripChars s.data
  let sr : Bool × List Char :=
    match cs with
    | '-' :: r => (true, r)
    | '+' :: r => (false, r)
    | _ => (false, cs)
  let low := sr.2.map Char.toLower
  if low = "inf".data || low = "infinity".data then some sr.1
  else if low = "nan".data then some false
  else if floatDecBody sr.2 then some (sr.1 && mantissaNonzero sr.2) else none

/-- Whether `time.sleep(float(value))` succeeds for a truthy wait value:
`float` must accept the value and the result must not be negative.
Non-string, non-numeric, non-bool values make `float` raise `TypeError`. -/
def waitOk : PyJson → Bool
  | .num lex =>
    match pyFloatStrParse lex with
    | some neg => !neg
    | none => false
  | .bool _ => true
  | .str s =>
    match pyFloatStrParse s with
    | some neg => !neg
    | none => false
  | _ => false

/-! ## The executor: `find_element` and `execute_plan` (ai_agent.py lines 112-161)

The Selenium driver and the `validators` library are external
collaborators; they appear as the oracle environment `Env`.  Element
handles are numbers.  `find_element` receives the raw selector value (the
driver raises on ill-typed selectors, which the oracle models by returning
`none`).  Completed page-affecting driver operations are recorded as
events; `print` calls and `time.sleep` are not page effects and leave no
event. -/

/-- Element handles of the driver. -/
abbrev Elem := Nat

/-- One completed page-affecting driver operation. -/
inductive Event where
  | nav (url : String) : Event
  | click (e : Elem) : Event
  | clearElem (e : Elem) : Event
  | sendKeys (e : Elem) (v : PyJson) : Event
  | submitElem (e : Elem) : Event

/-- The oracle environment: the `validators.url` predicate and the
Selenium driver operations, each reporting success or failure
(failure models a raised driver exception). -/
structure Env where
  urlValid : String → Bool
  findElement : String → Option PyJson → Option Elem
  clickOk : Elem → Bool
  clearOk : Elem → Bool
  sendKeysOk : Elem → PyJson → Bool
  submitOk : Elem → Bool
  navOk : String → Bool

/-- Per-step outcome, as observable in the execute_plan log: the step ran
to completion, raised (with the message of the recorded error print), or
was an unrecognized action reported and skipped. -/
inductive StepOut where
  | ok : StepOut
  | failed (msg : String) : StepOut
  | skipped : StepOut

/-- The `"by"` dispatch of `find_element`: only the five recognized
selector kinds are accepted, anything else raises `ValueError`. -/
def byName : Option PyJson → Option String
  | some (.str s) =>
    if s == "css" || s == "xpath" || s == "id" || s == "name" || s == "link_text" then some s
    else none
  | _ => none

/-- Semantics of a `wait` step body (ai_agent.py lines 133-135). -/
def waitSem (value : PyJson) : StepOut × List Event :=
  if pyTruthy value then
    if waitOk value then (.ok, []) else (.failed "invalid wait value", [])
  else (.ok, [])

/-- Semantics of a `navigate` step body (lines 136-140): re-validate the
URL with `validators.url`, then `driver.get`. -/
def navSem (env : Env) (value : PyJson) : StepOut × List Event :=
  match value with
  | .str s =>
    if env.urlValid s then
      if env.navOk s then (.ok, [.nav s]) else (.failed "driver.get error", [])
    else (.failed "Invalid URL in navigate action.", [])
  | _ => (.failed "Invalid URL in navigate action.", [])

/-- Semantics of a `click`, `fill` or `submit` step body (lines 141-154):
resolve the element through `find_element`, then act on it; `submit` falls
back to `click` when the submit call raises. -/
def elemSem (env : Env) (a : String) (by_ selector : Option PyJson) (value : PyJson) :
    StepOut × List Event :=
  match byName by_ with
  | none => (.failed "Unsupported selector type", [])
  | some b =>
    match env.findElement b selector with
    | none => (.failed "no such element", [])
    | some e =>
      if a = "click" then
        if env.clickOk e then (.ok, [.click e]) else (.failed "click error", [])
      else if a = "fill" then
        if env.clearOk e then
          if env.sendKeysOk e value then (.ok, [.clearElem e, .sendKeys e value])
          else (.failed "send_keys error", [.clearElem e])
        else (.failed "clear error", [])
      else
        if env.submitOk e then (.ok, [.submitElem e])
        else if env.clickOk e then (.ok, [.click e])
        else (.failed "click error", [])

/-- Dispatch on the `action` field (the `if/elif` chain of lines 133-156).
A non-string or missing action compares unequal to every action name and
reaches the `Unknown action` branch. -/
def dispatch (env : Env) : Option PyJson → Option PyJson → Option PyJson → PyJson →
    StepOut × List Event
  | some (.str a), by_, selector, value =>
    if a = "wait" then waitSem value
    else if a = "navigate" then navSem env value
    else if a = "click" ∨ a = "fill" ∨ a = "submit" then elemSem env a by_ selector value
    else (.skipped, [])
  | _, _, _, _ => (.skipped, [])

/-- Python `dict.get(k)`: the stored value, or `none` when the key is
absent. -/
def dictGet (kvs : List (String × PyJson)) (k : String) : Option PyJson :=
  (kvs.find? (fun p => p.1 == k)).map (fun p => p.2)

/-- The body of one loop iteration of `execute_plan` for a dict step: the
field extraction of lines 126-129 followed by the guarded `try` block. -/
def tryStep (env : Env) (kvs : List (String × PyJson)) : StepOut × List Event :=
  dispatch env (dictGet kvs "action") (dictGet kvs "by") (dictGet kvs "selector")
    ((dictGet kvs "value").getD (.str ""))

/-- Processing of one plan element: `step.get(...)` on a non-dict raises
`AttributeError` OUTSIDE the `try` block (line 126), modeled as `none`. -/
def stepRun (env : Env) (s : PyJson) : Option (StepOut × List Event) :=
  match s with
  | .obj kvs => some (tryStep env kvs)
  | _ => none

/-- Result of `execute_plan`: either an exception escaped the loop
(`raised`, possible only for non-dict steps), or the loop finished with
the returned boolean, the per-step outcome log and the event trace. -/
inductive ExecResult where
  | raised : ExecResult
  | finished (success : Bool) (outs : List StepOut) (events : List Event) : ExecResult

/-- Prepend the outcome and events of a completed non-failing step to the
result of the remaining plan. -/
def execCons (o : StepOut) (evs : List Event) : ExecResult → ExecResult
  | .raised => .raised
  | .finished suc outs evs2 => .finished suc (o :: outs) (evs ++ evs2)

/-- `execute_plan` (lines 124-161): run the steps in order; a step failure
is caught, reported, and stops the remaining plan with result `False`; an
unrecognized action is reported and skipped; an empty plan returns `True`. -/
def execute_plan (env : Env) : List PyJson → ExecResult
  | [] => .finished true [] []
  | s :: rest =>
    match stepRun env s with
    | none => .raised
    | some (.failed m, evs) => .finished false [.failed m] evs
    | some (.ok, evs) => execCons .ok evs (execute_plan env rest)
    | some (.skipped, evs) => execCons .skipped evs (execute_plan env rest)

/-! ## The plan navigation gate and the approval gate in `main`
(ai_agent.py lines 220-239) -/

/-- Python equality of an extracted field against a string literal
(`step.get("action") == "navigate"`): only a string value can be equal. -/
def isStrVal : Option PyJson → String → Bool
  | some (.str s), t => s == t
  | _, _ => false

/-- The domain the gate computes for the `value` field of a step
(`get_domain_from_url(nav_url)`; the all-catching except branch of
`get_domain_from_url` yields `""` for the non-string values on which
`urlparse` raises). -/
def gateDomain (kvs : List (String × PyJson)) : String :=
  match (dictGet kvs "value").getD (.str "") with
  | .str u => get_domain_from_url u
  | _ => ""

/-- The navigation check `main` applies to one plan element (lines
221-230): for a `navigate` step with a truthy `value`, the normalized
domain must be in the allowlist.  `some none` continues, `some (some d)`
rejects the whole plan surfacing `d`, `none` models the `AttributeError`
raised by `step.get` on a non-dict element. -/
def gateStep (allowed : List String) : PyJson → Option (Option String)
  | .obj kvs =>
    if isStrVal (dictGet kvs "action") "navigate" then
      if pyTruthy ((dictGet kvs "value").getD (.str "")) then
        if allowed.contains (gateDomain kvs) then some none
        else some (some (gateDomain kvs))
      else some none
    else some none
  | _ => none

/-- Result of the whole-plan navigation gate. -/
inductive GateResult where
  | raised : GateResult
  | rejected (domain : String) : GateResult
  | passed : GateResult

/-- The whole-plan navigation gate: scan the plan in order and reject at
the first disallowed navigation target. -/
def plan_gate (allowed : List String) : List PyJson → GateResult
  | [] => .passed
  | s :: rest =>
    match gateStep allowed s with
    | none => .raised
    | some (some d) => .rejected d
    | some none => plan_gate allowed rest

/-- What `main` does after obtaining a decoded plan. -/
inductive MainOutcome where
  | gateRaised : MainOutcome
  | gateRejected (domain : String) : MainOutcome
  | notApproved : MainOutcome
  | executed (r : ExecResult) : MainOutcome

/-- The post-planning phase of `main` (lines 220-243): the navigation gate
runs first; only when it passes is approval solicited; execution happens
only for a response whose stripped, lowercased form is exactly `yes`. -/
def main_after_plan (env : Env) (allowed : List String) (plan : List PyJson)
    (resp : String) : MainOutcome :=
  match plan_gate allowed plan with
  | .raised => .gateRaised
  | .rejected d => .gateRejected d
  | .passed =>
    if pyLower (pyStrip resp) = "yes" then .executed (execute_plan env plan)
    else .notApproved

/-- The events visible in a main outcome: nothing ran unless execution was
reached. -/
def MainOutcome.events : MainOutcome → List Event
  | .executed (.finished _ _ evs) => evs
  | _ => []

/-! ## Helper notions for the theorems -/

/-- Whether a per-step outcome is a recorded failure. -/
def isFailedOut : StepOut → Bool
  | .failed _ => true
  | _ => false

/-- The outcome one step would produce (for dict steps, the result of its
`try` block). -/
def stepOutF (env : Env) : PyJson → StepOut
  | .obj kvs => (tryStep env kvs).1
  | _ => .failed "AttributeError"

/-- The events one step would produce. -/
def stepEvsF (env : Env) : PyJson → List Event
  | .obj kvs => (tryStep env kvs).2
  | _ => []

/-- Whether the `action` field holds one of the five recognized action
names. -/
def isKnownAction : Option PyJson → Bool
  | some (.str a) => a == "wait" || a == "navigate" || a == "click" || a == "fill" || a == "submit"
  | _ => false

/-! ## Shared lemmas -/

/-- A step whose action field is not one of the five recognized kinds is
reported and skipped by the executor loop, with no driver interaction. -/
theorem tryStep_skipped_of_unknown (env : Env) (kvs : List (String × PyJson))
    (h : isKnownAction (dictGet kvs "action") = false) :
    tryStep env kvs = (.skipped, []) := by
  rw [tryStep]
  cases hd : dictGet kvs "action" with
  | none => rfl
  | some v =>
    cases v with
    | str a =>
      rw [hd] at h
      simp only [isKnownAction, Bool.or_eq_false_iff, beq_eq_false_iff_ne, ne_eq] at h
      obtain ⟨⟨⟨⟨h1, h2⟩, h3⟩, h4⟩, h5⟩ := h
      simp [dispatch, h1, h2, h3, h4, h5]
    | null => rfl
    | bool b => rfl
    | num l => rfl
    | arr xs => rfl
    | obj o => rfl

/-- The executor halts at the first failing step: the preceding steps are
processed with their outcomes, the failing step is recorded, nothing after
it is reached, and the whole-plan result is failure. -/
theorem exec_fail_stop (env : Env) (pre post : List PyJson)
    (kvs : List (String × PyJson)) (m : String)
    (hpre : ∀ t ∈ pre, (∃ k, t = PyJson.obj k) ∧ isFailedOut (stepOutF env t) = false)
    (hfail : (tryStep env kvs).1 = .failed m) :
    execute_plan env (pre ++ PyJson.obj kvs :: post) =
      .finished false (pre.map (stepOutF env) ++ [.failed m])
        ((pre.map (stepEvsF env)).flatten ++ (tryStep env kvs).2) := by
  induction pre with
  | nil =>
    rcases htk : tryStep env kvs with ⟨o, evs⟩
    rw [htk] at hfail
    simp only [Prod.fst] at hfail
    subst hfail
    simp [execute_plan, stepRun, htk]
  | cons t pre ih =>
    obtain ⟨⟨k, rfl⟩, hnf⟩ := hpre t (List.mem_cons_self t pre)
    have ih2 := ih (fun u hu => hpre u (List.mem_cons_of_mem _ hu))
    rcases htk : tryStep env k with ⟨o, evs⟩
    have hout : stepOutF env (PyJson.obj k) = o := by simp [stepOutF, htk]
    have hevs : stepEvsF env (PyJson.obj k) = evs := by simp [stepEvsF, htk]
    rw [hout] at hnf
    cases o with
    | failed m2 => simp [isFailedOut] at hnf
    | ok =>
      simp only [List.cons_append, execute_plan, stepRun, htk, List.append_eq, ih2, execCons,
        List.map_cons, hout, hevs, List.flatten, List.append_assoc]
    | skipped =>
      simp only [List.cons_append, execute_plan, stepRun, htk, List.append_eq, ih2, execCons,
        List.map_cons, hout, hevs, List.flatten, List.append_assoc]

/-- The gate check of one dict step never raises: it either continues or
rejects, and a rejection surfaces a domain that is not allowlisted. -/
theorem gateStep_obj_cases (allowed : List String) (k : List (String × PyJson)) :
    gateStep allowed (.obj k) = some none ∨
      ∃ d, gateStep allowed (.obj k) = some (some d) ∧ d ∉ allowed := by
  rw [gateStep]
  split_ifs with h1 h2 h3
  · exact Or.inl rfl
  · refine Or.inr ⟨gateDomain k, rfl, ?_⟩
    intro hmem
    exact h3 (by simpa using hmem)
  · exact Or.inl rfl
  · exact Or.inl rfl

/-- When the whole-plan gate passes, every plan element is a dict (a
non-dict element would have raised at its `step.get`). -/
theorem gate_passed_all_obj (allowed : List String) (plan : List PyJson)
    (h : plan_gate allowed plan = .passed) :
    ∀ s ∈ plan, ∃ kvs, s = PyJson.obj kvs := by
  induction plan with
  | nil => intro s hs; cases hs
  | cons t rest ih =>
    intro s hs
    rw [plan_gate] at h
    cases hg : gateStep allowed t with
    | none => rw [hg] at h; cases h
    | some v =>
      cases v with
      | some d => rw [hg] at h; cases h
      | none =>
        rw [hg] at h
        rcases List.mem_cons.mp hs with hs | hs
        · subst hs
          cases s with
          | obj kvs => exact ⟨kvs, rfl⟩
          | null => cases hg
          | bool b => cases hg
          | num l => cases hg
          | str s2 => cases hg
          | arr xs => cases hg
        · exact ih h s hs

/-- On a plan of dict steps the executor always returns a result: no
exception crosses its boundary. -/
theorem exec_finished_of_all_obj (env : Env) (plan : List PyJson)
    (h : ∀ s ∈ plan, ∃ kvs, s = PyJson.obj kvs) :
    ∃ suc outs evs, execute_plan env plan = .finished suc outs evs := by
  induction plan with
  | nil => exact ⟨true, [], [], rfl⟩
  | cons t rest ih =>
    obtain ⟨kvs, rfl⟩ := h t (List.mem_cons_self t rest)
    obtain ⟨suc, outs, evs, hrec⟩ := ih (fun u hu => h u (List.mem_cons_of_mem _ hu))
    rcases htk : tryStep env kvs with ⟨o, evs1⟩
    cases o with
    | failed m => exact ⟨false, [.failed m], evs1, by simp [execute_plan, stepRun, htk]⟩
    | ok =>
      exact ⟨suc, .ok :: outs, evs1 ++ evs,
        by simp [execute_plan, stepRun, htk, hrec, execCons]⟩
    | skipped =>
      exact ⟨suc, .skipped :: outs, evs1 ++ evs,
        by simp [execute_plan, stepRun, htk, hrec, execCons]⟩

/-- Shape of a finished executor run: the success flag is the absence of a
recorded failure, the outcome log never outruns the plan, and a successful
run has processed every step. -/
theorem exec_finished_shape (env : Env) (plan : List PyJson) :
    ∀ suc outs evs, execute_plan env plan = .finished suc outs evs →
      (suc = true ↔ ∀ o ∈ outs, isFailedOut o = false) ∧
      outs.length ≤ plan.length ∧ (suc = true → outs.length = plan.length) := by
  induction plan with
  | nil =>
    intro suc outs evs h
    rw [execute_plan] at h
    cases h
    simp
  | cons t rest ih =>
    intro suc outs evs h
    rw [execute_plan] at h
    cases hsr : stepRun env t with
    | none => rw [hsr] at h; cases h
    | some p =>
      rcases p with ⟨o, evs1⟩
      rw [hsr] at h
      cases o with
      | failed m =>
        cases h
        refine ⟨by simp [isFailedOut], by simp, by simp⟩
      | ok =>
        cases hrec : execute_plan env rest with
        | raised => rw [hrec] at h; cases h
        | finished suc2 outs2 evs2 =>
          rw [hrec] at h
          obtain ⟨hiff, hle, heq⟩ := ih suc2 outs2 evs2 hrec
          simp only [execCons] at h
          cases h
          refine ⟨?_, by simpa using Nat.succ_le_succ hle, ?_⟩
          · rw [hiff]
            simp [List.forall_mem_cons, isFailedOut]
          · intro hs
            simpa using heq hs
      | skipped =>
        cases hrec : execute_plan env rest with
        | raised => rw [hrec] at h; cases h
        | finished suc2 outs2 evs2 =>
          rw [hrec] at h
          obtain ⟨hiff, hle, heq⟩ := ih suc2 outs2 evs2 hrec
          simp only [execCons] at h
          cases h
          refine ⟨?_, by simpa using Nat.succ_le_succ hle, ?_⟩
          · rw [hiff]
            simp [List.forall_mem_cons, isFailedOut]
          · intro hs
            simpa using heq hs

/-- When a plan of dict steps contains a `navigate` step with a nonempty
string URL whose normalized domain is not allowlisted, the gate rejects
the plan, surfacing a non-allowlisted domain (the first offending one). -/
theorem plan_gate_rejects (allowed : List String) (pre post : List PyJson)
    (kvs : List (String × PyJson)) (u : String)
    (hobj : ∀ s ∈ pre, ∃ k, s = PyJson.obj k)
    (hnav : dictGet kvs "action" = some (.str "navigate"))
    (hval : dictGet kvs "value" = some (.str u))
    (hu : u ≠ "")
    (hdom : get_domain_from_url u ∉ allowed) :
    ∃ d, d ∉ allowed ∧ plan_gate allowed (pre ++ PyJson.obj kvs :: post) = .rejected d := by
  induction pre with
  | nil =>
    have hc : allowed.contains (get_domain_from_url u) = false := by simpa using hdom
    have hgs : gateStep allowed (.obj kvs) = some (some (get_domain_from_url u)) := by
      simp [gateStep, hnav, hval, isStrVal, pyTruthy, gateDomain, hc, hu, hdom]
    exact ⟨get_domain_from_url u, hdom, by simp [plan_gate, hgs]⟩
  | cons t pre ih =>
    obtain ⟨k, rfl⟩ := hobj t (List.mem_cons_self t pre)
    rcases gateStep_obj_cases allowed k with hcase | ⟨d, hcase, hdna⟩
    · obtain ⟨d, hd, hrej⟩ := ih (fun u hu => hobj u (List.mem_cons_of_mem _ hu))
      exact ⟨d, hd, by simp [plan_gate, hcase, hrej]⟩
    · exact ⟨d, hdna, by simp [plan_gate, hcase]⟩

/-- A `navigate` step whose `value` is absent or the empty string is
passed over by the gate check (`if nav_url:` is falsy). -/
theorem gateStep_skips_empty_value (allowed : List String) (kvs : List (String × PyJson))
    (hval : dictGet kvs "value" = none ∨ dictGet kvs "value" = some (.str "")) :
    gateStep allowed (.obj kvs) = some none := by
  rcases hval with h | h
  · simp [gateStep, h, pyTruthy]
  · simp [gateStep, h, pyTruthy]

/-- A step the gate passes over does not influence the gate result. -/
theorem plan_gate_skip (allowed : List String) (pre post : List PyJson) (s : PyJson)
    (hs : gateStep allowed s = some none) :
    plan_gate allowed (pre ++ s :: post) = plan_gate allowed (pre ++ post) := by
  induction pre with
  | nil => simp [plan_gate, hs]
  | cons t pre ih =>
    simp only [List.cons_append, plan_gate]
    cases gateStep allowed t with
    | none => rfl
    | some v =>
      cases v with
      | none => exact ih
      | some d => rfl

/-- A gate rejection determines the outcome of `main` before the approval
prompt: the result does not depend on any approval response. -/
theorem main_rejected_of_gate (env : Env) (allowed : List String) (plan : List PyJson)
    (d : String) (h : plan_gate allowed plan = .rejected d) :
    ∀ resp, main_after_plan env allowed plan resp = .gateRejected d := by
  intro resp
  simp [main_after_plan, h]

/-! ## Concrete fixtures used by the witnesses -/

/-- A driver oracle for concrete runs: `validators.url` accepts nonempty
strings, every element resolves to handle 0, every driver operation
succeeds. -/
def envAllOk : Env :=
  Env.mk (fun u => u != "") (fun _ _ => some 0) (fun _ => true) (fun _ => true)
    (fun _ _ => true) (fun _ => true) (fun _ => true)

/-- A driver oracle where only the selector `#go` resolves (to handle 7)
and every operation on a resolved element succeeds. -/
def envOnlyGo : Env :=
  Env.mk (fun u => u != "")
    (fun _ sel =>
      match sel with
      | some (.str s) => if s = "#go" then some 7 else none
      | _ => none)
    (fun _ => true) (fun _ => true) (fun _ _ => true) (fun _ => true) (fun _ => true)

/-- A driver oracle where `submit()` always raises while `click()`
succeeds. -/
def envSubmitRaises : Env :=
  Env.mk (fun u => u != "") (fun _ _ => some 0) (fun _ => true) (fun _ => true)
    (fun _ _ => true) (fun _ => false) (fun _ => true)

/-- A plan step navigating to `u`. -/
def stepNavTo (u : String) : PyJson :=
  .obj [("action", .str "navigate"), ("value", .str u)]

/-- A click step on the css selector `#go`. -/
def stepClickGo : PyJson :=
  .obj [("action", .str "click"), ("by", .str "css"), ("selector", .str "#go")]

/-- A fill step on the `name` selector `email`. -/
def stepFillEmail : PyJson :=
  .obj [("action", .str "fill"), ("by", .str "name"), ("selector", .str "email"),
    ("value", .str "x@example.com")]

/-- A step with an unrecognized action kind. -/
def stepFrobnicate : PyJson :=
  .obj [("action", .str "frobnicate")]

/-! ## The claims -/

/-- C1: for every plan of records containing a Navigate action with a
nonempty target URL whose normalized domain is absent from the allowlist,
the pre-execution domain gate rejects the entire plan — whatever the
position of the Navigate step — the rejection surfaces a non-allowlisted
domain, the outcome of `main` is independent of any approval response
(approval is never solicited), and no driver event occurs. -/
theorem C1_nav_gate_whole_plan_veto (env : Env) (allowed : List String)
    (pre post : List PyJson) (kvs : List (String × PyJson)) (u : String)
    (hobj : ∀ s ∈ pre, ∃ k, s = PyJson.obj k)
    (hnav : dictGet kvs "action" = some (PyJson.str "navigate"))
    (hval : dictGet kvs "value" = some (PyJson.str u))
    (hu : u ≠ "")
    (hdom : get_domain_from_url u ∉ allowed) :
    ∃ d, d ∉ allowed ∧
      plan_gate allowed (pre ++ PyJson.obj kvs :: post) = .rejected d ∧
      ∀ resp,
        main_after_plan env allowed (pre ++ PyJson.obj kvs :: post) resp = .gateRejected d ∧
        (main_after_plan env allowed (pre ++ PyJson.obj kvs :: post) resp).events = [] := by
  obtain ⟨d, hd, hrej⟩ := plan_gate_rejects allowed pre post kvs u hobj hnav hval hu hdom
  refine ⟨d, hd, hrej, fun resp => ?_⟩
  have hm := main_rejected_of_gate env allowed _ d hrej resp
  exact ⟨hm, by rw [hm]; rfl⟩

theorem C1_witness :
    ∃ d, d ∉ ["example.com"] ∧
      plan_gate ["example.com"]
        ([stepClickGo] ++ PyJson.obj [("action", .str "navigate"), ("value", .str "https://evil.test")] :: [stepClickGo]) = .rejected d ∧
      ∀ resp,
        main_after_plan envAllOk ["example.com"]
          ([stepClickGo] ++ PyJson.obj [("action", .str "navigate"), ("value", .str "https://evil.test")] :: [stepClickGo]) resp = .gateRejected d ∧
        (main_after_plan envAllOk ["example.com"]
          ([stepClickGo] ++ PyJson.obj [("action", .str "navigate"), ("value", .str "https://evil.test")] :: [stepClickGo]) resp).events = [] :=
  C1_nav_gate_whole_plan_veto envAllOk ["example.com"] [stepClickGo] [stepClickGo]
    [("action", .str "navigate"), ("value", .str "https://evil.test")] "https://evil.test"
    (by intro s hs; rw [List.mem_singleton] at hs; subst hs; exact ⟨_, rfl⟩)
    rfl rfl (by decide) (by decide)

/-- C2: for every plan of records whose first failing step is the step
after `pre`, the steps of `pre` are processed with their outcomes, the
failing step is recorded as failed, the steps after it are never reached
(the outcome log ends at the failure), and the whole-plan result is
failure: execution is fail-stop. -/
theorem C2_fail_stop (env : Env) (pre post : List PyJson)
    (kvs : List (String × PyJson)) (m : String)
    (hpre : ∀ t ∈ pre, (∃ k, t = PyJson.obj k) ∧ isFailedOut (stepOutF env t) = false)
    (hfail : (tryStep env kvs).1 = .failed m) :
    execute_plan env (pre ++ PyJson.obj kvs :: post) =
      .finished false (pre.map (stepOutF env) ++ [.failed m])
        ((pre.map (stepEvsF env)).flatten ++ (tryStep env kvs).2) :=
  exec_fail_stop env pre post kvs m hpre hfail

theorem C2_witness :
    execute_plan envOnlyGo
      ([stepClickGo] ++
        PyJson.obj [("action", .str "fill"), ("by", .str "name"), ("selector", .str "email"), ("value", .str "x@example.com")] ::
        [stepClickGo]) =
      .finished false [.ok, .failed "no such element"] [.click 7] :=
  C2_fail_stop envOnlyGo [stepClickGo] [stepClickGo]
    [("action", .str "fill"), ("by", .str "name"), ("selector", .str "email"), ("value", .str "x@example.com")]
    "no such element"
    (by intro t ht; rw [List.mem_singleton] at ht; subst ht; exact ⟨⟨_, rfl⟩, rfl⟩)
    rfl

/-- C3 counterexample: the approval response "YES" is not the exact token
"yes", yet the plan is not discarded — it executes and changes the
browser state (a navigation event). -/
theorem C3_counterexample :
    "YES" ≠ "yes" ∧
    main_after_plan envAllOk ["example.com"] [stepNavTo "https://example.com"] "YES" =
      .executed (.finished true [.ok] [.nav "https://example.com"]) :=
  ⟨by decide, rfl⟩

/-- C3 (amended): for every approval response whose whitespace-stripped,
lowercased form is not the token "yes", a gate-passed plan is discarded
unexecuted: the outcome is not-approved and no driver event occurs. -/
theorem C3_approval_gate (env : Env) (allowed : List String) (plan : List PyJson)
    (resp : String)
    (hgate : plan_gate allowed plan = .passed)
    (hresp : pyLower (pyStrip resp) ≠ "yes") :
    main_after_plan env allowed plan resp = .notApproved ∧
      (main_after_plan env allowed plan resp).events = [] := by
  have h : main_after_plan env allowed plan resp = .notApproved := by
    simp [main_after_plan, hgate, hresp]
  exact ⟨h, by rw [h]; rfl⟩

theorem C3_witness :
    main_after_plan envAllOk ["example.com"] [stepNavTo "https://example.com"] "y" = .notApproved ∧
      (main_after_plan envAllOk ["example.com"] [stepNavTo "https://example.com"] "y").events = [] :=
  C3_approval_gate envAllOk ["example.com"] [stepNavTo "https://example.com"] "y" rfl (by decide)

/-- C4 counterexample: a record whose action field is the unrecognized
kind "frobnicate" sails through validation — `ask_openai_for_plan`
decodes it into a plan with no `UnknownAction` failure — reaches the
gates, is shown for approval, and is processed (skipped) by the executor
instead of failing before any gate. -/
theorem C4_counterexample :
    ask_openai_parse "[\x7b\"action\": \"frobnicate\"\x7d]" =
      some (.arr [.obj [("action", .str "frobnicate")]]) ∧
    main_after_plan envAllOk [] [.obj [("action", .str "frobnicate")]] "yes" =
      .executed (.finished true [.skipped] []) :=
  ⟨rfl, rfl⟩

/-- C4 (amended): the program performs no per-record validation at the
decoding stage — a record with an unrecognized action kind decodes
successfully, is skipped at execution time with execution continuing, and
a click record missing its selector-kind field decodes successfully and
fails only when the executor reaches it (halting the plan there). -/
theorem C4_no_record_validation :
    (ask_openai_parse "[\x7b\"action\": \"frobnicate\"\x7d]" =
      some (.arr [.obj [("action", .str "frobnicate")]])) ∧
    (∀ (env : Env) (kvs : List (String × PyJson)) (rest : List PyJson),
      isKnownAction (dictGet kvs "action") = false →
      execute_plan env (PyJson.obj kvs :: rest) = execCons .skipped [] (execute_plan env rest)) ∧
    (∀ (env : Env) (kvs : List (String × PyJson)) (rest : List PyJson),
      dictGet kvs "action" = some (PyJson.str "click") →
      dictGet kvs "by" = none →
      execute_plan env (PyJson.obj kvs :: rest) =
        .finished false [.failed "Unsupported selector type"] []) := by
  refine ⟨rfl, ?_, ?_⟩
  · intro env kvs rest h
    simp [execute_plan, stepRun, tryStep_skipped_of_unknown env kvs h]
  · intro env kvs rest ha hby
    have htk : tryStep env kvs = (.failed "Unsupported selector type", []) := by
      rw [tryStep, ha, hby]
      simp [dispatch, elemSem, byName]
    simp [execute_plan, stepRun, htk]

theorem C4_witness :
    execute_plan envAllOk [stepFrobnicate, stepClickGo] =
      execCons .skipped [] (execute_plan envAllOk [stepClickGo]) ∧
    execute_plan envAllOk [PyJson.obj [("action", .str "click")]] =
      .finished false [.failed "Unsupported selector type"] [] :=
  ⟨C4_no_record_validation.2.1 envAllOk [("action", .str "frobnicate")] [stepClickGo] rfl,
   C4_no_record_validation.2.2 envAllOk [("action", .str "click")] [] rfl rfl⟩

/-- C5 counterexample: on the URL `https://www.www.example.com` the code
normalizes the netloc to `example.com` (`str.replace` removes every
occurrence of `www.`), while dropping only a leading `www.` as the claim
states would give `www.example.com`. -/
theorem C5_counterexample :
    get_domain_from_url "https://www.www.example.com" = "example.com" ∧
    spec_normalize_domain "https://www.www.example.com" = "www.example.com" ∧
    get_domain_from_url "https://www.www.example.com" ≠
      spec_normalize_domain "https://www.www.example.com" :=
  ⟨rfl, rfl, by decide⟩

/-- `stripWWW` on a list that does not start with the pattern keeps the
head character. -/
theorem stripWWW_cons_of_not_prefix (c : Char) (cs : List Char)
    (h : ¬ (['w', 'w', 'w', '.'] : List Char).isPrefixOf (c :: cs) = true) :
    stripWWW (c :: cs) = c :: stripWWW cs := by
  rw [stripWWW.eq_def]
  split
  · rename_i rest heq
    exfalso
    apply h
    cases heq
    simp [List.isPrefixOf]
  · rename_i c2 cs2 heq
    cases heq
    rfl
  · rename_i heq
    cases heq

/-- `stripWWW` agrees with the generic fueled replace-all removal. -/
theorem removeAllOcc_eq_stripWWW :
    ∀ (f : Nat) (cs : List Char), cs.length ≤ f →
      removeAllOcc ['w', 'w', 'w', '.'] f cs = stripWWW cs := by
  intro f
  induction f with
  | zero =>
    intro cs h
    cases cs with
    | nil => rfl
    | cons c cs => simp at h
  | succ f ih =>
    intro cs h
    cases cs with
    | nil => rfl
    | cons c cs =>
      by_cases hp : (['w', 'w', 'w', '.'] : List Char).isPrefixOf (c :: cs) = true
      · obtain ⟨t, ht⟩ := List.isPrefixOf_iff_prefix.mp hp
        rw [removeAllOcc, if_pos ⟨by decide, hp⟩]
        rw [← ht]
        have hdrop : ((['w', 'w', 'w', '.'] : List Char) ++ t).drop
            (['w', 'w', 'w', '.'] : List Char).length = t := by
          simp
        rw [hdrop]
        have hlen : t.length ≤ f := by
          have : (c :: cs).length = t.length + 4 := by rw [← ht]; simp
          omega
        rw [ih t hlen]
        rfl
      · rw [removeAllOcc, if_neg (fun hc => hp hc.2), stripWWW_cons_of_not_prefix c cs hp]
        rw [ih cs (by simpa using Nat.le_of_succ_le_succ h)]

/-- C5 (amended): domain normalization returns the network-location
component with EVERY non-overlapping occurrence of the substring `www.`
removed (not only a leading one), and the gate decides allowlist
membership by exact string equality on this normalized form — a navigate
step is admitted exactly when the normalized domain is a member of the
allowlist, with no subdomain wildcarding. -/
theorem C5_normalization_amended :
    (∀ url : String, get_domain_from_url url = spec_normalize_domain_amended url) ∧
    (∀ (allowed : List String) (kvs : List (String × PyJson)) (rest : List PyJson) (u : String),
      dictGet kvs "action" = some (PyJson.str "navigate") →
      dictGet kvs "value" = some (PyJson.str u) →
      u ≠ "" →
      plan_gate allowed (PyJson.obj kvs :: rest) =
        (if get_domain_from_url u ∈ allowed then plan_gate allowed rest
         else .rejected (get_domain_from_url u))) := by
  constructor
  · intro url
    rw [get_domain_from_url, spec_normalize_domain_amended]
    cases pyUrlNetloc url.data with
    | none => rfl
    | some n =>
      show (⟨stripWWW n⟩ : String) = ⟨removeAllOcc ['w', 'w', 'w', '.'] n.length n⟩
      rw [removeAllOcc_eq_stripWWW n.length n (Nat.le_refl _)]
  · intro allowed kvs rest u hnav hval hu
    have hgd : gateDomain kvs = get_domain_from_url u := by simp [gateDomain, hval]
    by_cases hm : get_domain_from_url u ∈ allowed
    · have hc : allowed.contains (get_domain_from_url u) = true := by simpa using hm
      simp [plan_gate, gateStep, hnav, hval, isStrVal, pyTruthy, hu, hgd, hc, hm]
    · have hc : allowed.contains (get_domain_from_url u) = false := by simpa using hm
      simp [plan_gate, gateStep, hnav, hval, isStrVal, pyTruthy, hu, hgd, hc, hm]

theorem C5_witness :
    get_domain_from_url "https://www.www.example.com" =
      spec_normalize_domain_amended "https://www.www.example.com" ∧
    plan_gate ["example.com"] [stepNavTo "https://sub.example.com"] =
      .rejected "sub.example.com" := by
  refine ⟨C5_normalization_amended.1 "https://www.www.example.com", ?_⟩
  have h := C5_normalization_amended.2 ["example.com"]
    [("action", .str "navigate"), ("value", .str "https://sub.example.com")] []
    "https://sub.example.com" rfl rfl (by decide)
  simpa using h

/-- C6: for every plan that reaches execution through the gates and the
approval, the executor returns a whole-plan summary with a per-step
outcome list — it never raises past its boundary: the success flag is
exactly the absence of a recorded per-step failure, the outcome list
never outruns the plan, and a successful run has an outcome for every
step. -/
theorem C6_executor_total (env : Env) (allowed : List String) (plan : List PyJson)
    (resp : String) (r : ExecResult)
    (h : main_after_plan env allowed plan resp = .executed r) :
    ∃ suc outs evs, r = .finished suc outs evs ∧
      (suc = true ↔ ∀ o ∈ outs, isFailedOut o = false) ∧
      outs.length ≤ plan.length ∧ (suc = true → outs.length = plan.length) := by
  rw [main_after_plan] at h
  cases hg : plan_gate allowed plan with
  | raised => rw [hg] at h; cases h
  | rejected d => rw [hg] at h; cases h
  | passed =>
    rw [hg] at h
    by_cases hr : pyLower (pyStrip resp) = "yes"
    · rw [if_pos hr] at h
      injection h with h
      obtain ⟨suc, outs, evs, hfin⟩ :=
        exec_finished_of_all_obj env plan (gate_passed_all_obj allowed plan hg)
      obtain ⟨hiff, hle, heq⟩ := exec_finished_shape env plan suc outs evs hfin
      exact ⟨suc, outs, evs, by rw [← h, hfin], hiff, hle, heq⟩
    · rw [if_neg hr] at h
      cases h

theorem C6_witness :
    ∃ suc outs evs,
      ExecResult.finished true [StepOut.ok] [Event.nav "https://example.com"] =
        .finished suc outs evs ∧
      (suc = true ↔ ∀ o ∈ outs, isFailedOut o = false) ∧
      outs.length ≤ ([stepNavTo "https://example.com"] : List PyJson).length ∧
      (suc = true → outs.length = ([stepNavTo "https://example.com"] : List PyJson).length) :=
  C6_executor_total envAllOk ["example.com"] [stepNavTo "https://example.com"] "yes"
    (ExecResult.finished true [StepOut.ok] [Event.nav "https://example.com"]) rfl

/-- C8: for every Submit step whose element resolves, when the submit
call raises, the executor falls back to a click on the same element; the
step succeeds exactly when that click succeeds. -/
theorem C8_submit_fallback (env : Env) (kvs : List (String × PyJson)) (b : String) (e : Elem)
    (ha : dictGet kvs "action" = some (PyJson.str "submit"))
    (hby : byName (dictGet kvs "by") = some b)
    (hfind : env.findElement b (dictGet kvs "selector") = some e)
    (hsub : env.submitOk e = false) :
    (env.clickOk e = true → tryStep env kvs = (.ok, [.click e])) ∧
    (env.clickOk e = false → tryStep env kvs = (.failed "click error", [])) := by
  constructor
  · intro hc
    rw [tryStep, ha]
    simp [dispatch, elemSem, hby, hfind, hsub, hc]
  · intro hc
    rw [tryStep, ha]
    simp [dispatch, elemSem, hby, hfind, hsub, hc]

theorem C8_witness :
    tryStep envSubmitRaises
      [("action", .str "submit"), ("by", .str "css"), ("selector", .str "form")] =
      (.ok, [.click 0]) :=
  (C8_submit_fallback envSubmitRaises
    [("action", .str "submit"), ("by", .str "css"), ("selector", .str "form")]
    "css" 0 rfl rfl rfl rfl).1 rfl

/-- C9: a Navigate step whose `value` is absent or empty is passed over
by the domain gate (the gate result is as if the step were not there),
and when execution reaches that step it fails the URL re-validation
(`validators.url` rejects the empty string), halting the plan at that
step with the source message. -/
theorem C9_empty_navigate (env : Env) (allowed : List String)
    (pre post : List PyJson) (kvs : List (String × PyJson))
    (hval : dictGet kvs "value" = none ∨ dictGet kvs "value" = some (PyJson.str ""))
    (hnav : dictGet kvs "action" = some (PyJson.str "navigate"))
    (hurl : env.urlValid "" = false)
    (hpre : ∀ t ∈ pre, (∃ k, t = PyJson.obj k) ∧ isFailedOut (stepOutF env t) = false) :
    plan_gate allowed (pre ++ PyJson.obj kvs :: post) = plan_gate allowed (pre ++ post) ∧
    execute_plan env (pre ++ PyJson.obj kvs :: post) =
      .finished false (pre.map (stepOutF env) ++ [.failed "Invalid URL in navigate action."])
        ((pre.map (stepEvsF env)).flatten) := by
  have htk : tryStep env kvs = (.failed "Invalid URL in navigate action.", []) := by
    rw [tryStep, hnav]
    rcases hval with h | h
    · rw [h]
      simp [dispatch, navSem, hurl]
    · rw [h]
      simp [dispatch, navSem, hurl]
  constructor
  · exact plan_gate_skip allowed pre post _ (gateStep_skips_empty_value allowed kvs hval)
  · have h2 := exec_fail_stop env pre post kvs "Invalid URL in navigate action." hpre
      (by rw [htk])
    rw [h2, htk]
    simp

theorem C9_witness :
    plan_gate ["example.com"]
      ([stepClickGo] ++ PyJson.obj [("action", .str "navigate")] :: [stepClickGo]) =
      plan_gate ["example.com"] ([stepClickGo] ++ [stepClickGo]) ∧
    execute_plan envAllOk
      ([stepClickGo] ++ PyJson.obj [("action", .str "navigate")] :: [stepClickGo]) =
      .finished false [.ok, .failed "Invalid URL in navigate action."] [.click 0] :=
  C9_empty_navigate envAllOk ["example.com"] [stepClickGo] [stepClickGo]
    [("action", .str "navigate")] (Or.inl rfl) rfl rfl
    (by intro t ht; rw [List.mem_singleton] at ht; subst ht; exact ⟨⟨_, rfl⟩, rfl⟩)

/-- C10: a step whose action field is not one of the five recognized
kinds does not stop the executor — it is skipped and execution continues
with the next step — and a plan consisting only of such steps returns
overall success with every step skipped and no driver event. -/
theorem C10_unknown_actions_continue (env : Env) :
    (∀ (kvs : List (String × PyJson)) (rest : List PyJson),
      isKnownAction (dictGet kvs "action") = false →
      execute_plan env (PyJson.obj kvs :: rest) = execCons .skipped [] (execute_plan env rest)) ∧
    (∀ plan : List PyJson,
      (∀ s ∈ plan, ∃ kvs, s = PyJson.obj kvs ∧ isKnownAction (dictGet kvs "action") = false) →
      execute_plan env plan = .finished true (plan.map (fun _ => .skipped)) []) := by
  constructor
  · intro kvs rest h
    simp [execute_plan, stepRun, tryStep_skipped_of_unknown env kvs h]
  · intro plan h
    induction plan with
    | nil => rfl
    | cons t rest ih =>
      obtain ⟨kvs, rfl, hk⟩ := h t (List.mem_cons_self t rest)
      have hrec := ih (fun u hu => h u (List.mem_cons_of_mem _ hu))
      simp [execute_plan, stepRun, tryStep_skipped_of_unknown env kvs hk, hrec, execCons]

theorem C10_witness :
    execute_plan envAllOk [stepFrobnicate, stepFrobnicate] =
      .finished true [.skipped, .skipped] [] :=
  (C10_unknown_actions_continue envAllOk).2 [stepFrobnicate, stepFrobnicate]
    (by
      intro s hs
      rcases List.mem_cons.mp hs with rfl | hs
      · exact ⟨[("action", .str "frobnicate")], rfl, rfl⟩
      · rw [List.mem_singleton] at hs
        subst hs
        exact ⟨[("action", .str "frobnicate")], rfl, rfl⟩)

/-! ## Line structure lemmas for the code-fence stripping -/

/-- A character that never breaks a line in `str.splitlines`. -/
def lineSafe (c : Char) : Bool :=
  c != '\r' && !isLineTerm c

/-- A character allowed inside the fenced content: a plain newline or a
line-safe character (no `\r` and no exotic line separators). -/
def innerSafe (c : Char) : Bool :=
  c == '\n' || lineSafe c

/-- Prepending to the first line keeps the line list nonempty. -/
theorem consHead_ne_nil (c : Char) (P : List (List Char)) : consHead c P ≠ [] := by
  cases P <;> simp [consHead]

/-- `splitlines` of a nonempty text is nonempty. -/
theorem pySplitlines_ne_nil (cs : List Char) (h : cs ≠ []) : pySplitlines cs ≠ [] := by
  rw [pySplitlines.eq_def]
  split
  · exact absurd rfl h
  · split
    · exact List.cons_ne_nil _ _
    · exact List.cons_ne_nil _ _
  · split
    · split
      · exact List.cons_ne_nil _ _
      · exact List.cons_ne_nil _ _
    · split
      · exact List.cons_ne_nil _ _
      · exact consHead_ne_nil _ _

/-- `splitlines` after a line-safe head character prepends it to the
first line. -/
theorem pySplitlines_cons_of_lineSafe (c : Char) (cs : List Char) (h : lineSafe c = true) :
    pySplitlines (c :: cs) = consHead c (pySplitlines cs) := by
  have h2 := h
  rw [lineSafe, Bool.and_eq_true, bne_iff_ne, ne_eq, Bool.not_eq_true'] at h2
  cases cs with
  | nil =>
    show (if isBreak c then [[]] else [[c]]) = consHead c (pySplitlines [])
    rw [if_neg (by simp [isBreak, h2.1, h2.2])]
    rfl
  | cons c2 rest =>
    show (if c = '\r' then
        if c2 = '\n' then [] :: pySplitlines rest else [] :: pySplitlines (c2 :: rest)
      else if isLineTerm c then [] :: pySplitlines (c2 :: rest)
      else consHead c (pySplitlines (c2 :: rest))) = consHead c (pySplitlines (c2 :: rest))
    rw [if_neg h2.1, if_neg (by simp [h2.2])]

/-- `splitlines` after a leading plain newline starts with an empty
line. -/
theorem pySplitlines_nl (rest : List Char) :
    pySplitlines ('\n' :: rest) = [] :: pySplitlines rest := by
  cases rest with
  | nil => rfl
  | cons c2 r2 => rfl

/-- `splitlines` takes a line-safe prefix up to the first newline as the
first line. -/
theorem pySplitlines_line_append (a rest : List Char) (ha : ∀ c ∈ a, lineSafe c = true) :
    pySplitlines (a ++ '\n' :: rest) = a :: pySplitlines rest := by
  induction a with
  | nil => rw [List.nil_append, pySplitlines_nl]
  | cons c a ih =>
    have hc := ha c (List.mem_cons_self c a)
    rw [List.cons_append, pySplitlines_cons_of_lineSafe c _ hc,
      ih (fun u hu => ha u (List.mem_cons_of_mem _ hu)), consHead]

/-- `splitlines` of a nonempty line-safe text is that single line. -/
theorem pySplitlines_single (b : List Char) (hb : ∀ c ∈ b, lineSafe c = true) (hne : b ≠ []) :
    pySplitlines b = [b] := by
  induction b with
  | nil => exact absurd rfl hne
  | cons c b ih =>
    have hc := hb c (List.mem_cons_self c b)
    rw [pySplitlines_cons_of_lineSafe c b hc]
    cases b with
    | nil => rfl
    | cons c2 b2 =>
      rw [ih (fun u hu => hb u (List.mem_cons_of_mem _ hu)) (List.cons_ne_nil _ _), consHead]

/-- A trailing line-safe nonempty last line after a newline becomes one
additional whole line. -/
theorem pySplitlines_last (m b : List Char) (hm : ∀ c ∈ m, innerSafe c = true)
    (hb : ∀ c ∈ b, lineSafe c = true) (hbne : b ≠ []) :
    pySplitlines (m ++ '\n' :: b) = pySplitlines (m ++ ['\n']) ++ [b] := by
  induction m with
  | nil =>
    rw [List.nil_append, List.nil_append, pySplitlines_nl, pySplitlines_single b hb hbne]
    rfl
  | cons c m ih =>
    have hc := hm c (List.mem_cons_self c m)
    have ih2 := ih (fun u hu => hm u (List.mem_cons_of_mem _ hu))
    by_cases hn : c = '\n'
    · subst hn
      rw [List.cons_append, pySplitlines_nl, ih2, List.cons_append, pySplitlines_nl,
        List.cons_append]
    · have hls : lineSafe c = true := by
        rw [innerSafe, Bool.or_eq_true] at hc
        rcases hc with hc | hc
        · exact absurd (by simpa using hc) hn
        · exact hc
      rw [List.cons_append, pySplitlines_cons_of_lineSafe c _ hls, ih2,
        List.cons_append, pySplitlines_cons_of_lineSafe c _ hls]
      have hP := pySplitlines_ne_nil (m ++ ['\n']) (by simp)
      cases hQ : pySplitlines (m ++ ['\n']) with
      | nil => exact absurd hQ hP
      | cons q qs => simp [consHead, List.cons_append]

/-- Joining the head-prepended line list. -/
theorem pyJoinNL_consHead (c : Char) (P : List (List Char)) (hP : P ≠ []) :
    pyJoinNL (consHead c P) = c :: pyJoinNL P := by
  cases P with
  | nil => exact absurd rfl hP
  | cons l ls =>
    cases ls with
    | nil => rfl
    | cons l2 ls2 => rfl

/-- Joining the split of a newline-terminated inner text recovers the
text. -/
theorem pyJoinNL_splitlines (m : List Char) (hm : ∀ c ∈ m, innerSafe c = true) :
    pyJoinNL (pySplitlines (m ++ ['\n'])) = m := by
  induction m with
  | nil => rfl
  | cons c m ih =>
    have hc := hm c (List.mem_cons_self c m)
    have ih2 := ih (fun u hu => hm u (List.mem_cons_of_mem _ hu))
    by_cases hn : c = '\n'
    · subst hn
      rw [List.cons_append, pySplitlines_nl]
      have hP := pySplitlines_ne_nil (m ++ ['\n']) (by simp)
      cases hQ : pySplitlines (m ++ ['\n']) with
      | nil => exact absurd hQ hP
      | cons q qs =>
        have hred : pyJoinNL ([] :: q :: qs) = '\n' :: pyJoinNL (q :: qs) := rfl
        rw [hred, ← hQ, ih2]
    · have hls : lineSafe c = true := by
        rw [innerSafe, Bool.or_eq_true] at hc
        rcases hc with hc | hc
        · exact absurd (by simpa using hc) hn
        · exact hc
      rw [List.cons_append, pySplitlines_cons_of_lineSafe c _ hls,
        pyJoinNL_consHead c _ (pySplitlines_ne_nil _ (by simp)), ih2]

/-- C7: for every raw planner text consisting of an opening fence line
(any line starting with three backticks), inner content, and a final line
(any nonempty line — it is discarded without being matched against a
fence pattern), the validator discards exactly the first and last line
and parses the inner content: the decoding result equals the decoding of
the same inner content unfenced. -/
theorem C7_fence_strip (fenceOpen inner lastLine : List Char)
    (hfo : (['`', '`', '`'] : List Char).isPrefixOf fenceOpen = true)
    (h1 : ∀ c ∈ fenceOpen, lineSafe c = true)
    (h2 : ∀ c ∈ inner, innerSafe c = true)
    (h3 : ∀ c ∈ lastLine, lineSafe c = true)
    (h4 : lastLine ≠ [])
    (h5 : pyStripChars (fenceOpen ++ '\n' :: (inner ++ '\n' :: lastLine)) =
      fenceOpen ++ '\n' :: (inner ++ '\n' :: lastLine))
    (h6 : pyStripChars inner = inner)
    (h7 : (['`', '`', '`'] : List Char).isPrefixOf inner = false) :
    strip_code_fence (fenceOpen ++ '\n' :: (inner ++ '\n' :: lastLine)) = inner ∧
    parse_plan_chars (fenceOpen ++ '\n' :: (inner ++ '\n' :: lastLine)) =
      parse_plan_chars inner := by
  have hpre : (['`', '`', '`'] : List Char).isPrefixOf
      (fenceOpen ++ '\n' :: (inner ++ '\n' :: lastLine)) = true := by
    rw [List.isPrefixOf_iff_prefix] at hfo ⊢
    exact hfo.trans (List.prefix_append _ _)
  have hsplit : pySplitlines (fenceOpen ++ '\n' :: (inner ++ '\n' :: lastLine)) =
      fenceOpen :: (pySplitlines (inner ++ ['\n']) ++ [lastLine]) := by
    rw [pySplitlines_line_append fenceOpen _ h1, pySplitlines_last inner lastLine h2 h3 h4]
  have hsf : strip_code_fence (fenceOpen ++ '\n' :: (inner ++ '\n' :: lastLine)) = inner := by
    rw [strip_code_fence, if_pos hpre, hsplit]
    simp only [List.drop_succ_cons, List.drop_zero]
    rw [List.dropLast_concat]
    exact pyJoinNL_splitlines inner h2
  refine ⟨hsf, ?_⟩
  rw [parse_plan_chars, parse_plan_chars, h5, h6, hsf,
    strip_code_fence, if_neg (by simp [h7])]

theorem C7_witness :
    strip_code_fence ("```json".data ++ '\n' ::
        ("[\x7b\"action\": \"click\"\x7d]".data ++ '\n' :: "```".data)) =
      "[\x7b\"action\": \"click\"\x7d]".data ∧
    parse_plan_chars ("```json".data ++ '\n' ::
        ("[\x7b\"action\": \"click\"\x7d]".data ++ '\n' :: "```".data)) =
      parse_plan_chars "[\x7b\"action\": \"click\"\x7d]".data ∧
    parse_plan_chars "[\x7b\"action\": \"click\"\x7d]".data =
      some (.arr [.obj [("action", .str "click")]]) := by
  have h := C7_fence_strip "```json".data "[\x7b\"action\": \"click\"\x7d]".data "```".data
    (by decide) (by decide) (by decide) (by decide) (by decide) rfl rfl (by decide)
  exact ⟨h.1, h.2, rfl⟩
